import Mathlib

/- A shallow embedding of the IMAP protocol engine in src/client.rs of
   masonium/rust-imap.  Rust strings and byte buffers are modelled as
   lists of characters; the buffered TCP/TLS stream as a finite list of
   pending characters together with a flag saying whether reads past
   the end fail with an I/O error (good = false) or behave as
   end-of-file (good = true).  Fallible code returns a RunResult, which
   also has explicit values for a panicking execution (unwrap failures,
   integer-parse overflow) and for a non-terminating one. -/

abbrev Chars := List Char

/-- Models std::io::Error as observed by client.rs: `io` is a
transport-level failure of unspecified kind, `other m` is
Error::new of ErrorKind::Other with message `m`. -/
inductive ClientError where
  | io : ClientError
  | other : Chars → ClientError
  deriving DecidableEq

/-- Outcome of running a piece of the Rust code: a normal value, an
error return, a panic, or non-termination. -/
inductive RunResult (α : Type) where
  | ok : α → RunResult α
  | err : ClientError → RunResult α
  | panic : RunResult α
  | diverge : RunResult α
  deriving DecidableEq

/-- The buffered read side of the connection: the characters still to
be delivered, and whether exhausting them means end-of-file
(good = true) or an I/O error on the next read (good = false). -/
structure ByteStream where
  bytes : Chars
  good : Bool
  deriving DecidableEq

/-- Splits off the first line: everything up to and including the first
line-feed character, as BufRead::read_line does. -/
def takeLine : Chars → Chars × Chars
  | [] => ([], [])
  | c :: rest =>
    if c = '\n' then ([c], rest)
    else
      let p := takeLine rest
      (c :: p.1, p.2)

/-- Models BufRead::read_line on the stream: if a line feed is
available the whole line (terminator included) is returned; otherwise
end-of-file yields the remaining partial (possibly empty) line, and a
bad transport yields an I/O error. -/
def read_line (s : ByteStream) : RunResult (Chars × ByteStream) :=
  if '\n' ∈ s.bytes then
    let p := takeLine s.bytes
    .ok (p.1, ⟨p.2, s.good⟩)
  else if s.good then .ok (s.bytes, ⟨[], true⟩)
  else .err .io

/-- Models Read::read_exact n: exactly n characters, never fewer and
never more; reaching the end of the stream first is an error. -/
def read_exact (n : Nat) (s : ByteStream) : RunResult (Chars × ByteStream) :=
  if n ≤ s.bytes.length then .ok (s.bytes.take n, ⟨s.bytes.drop n, s.good⟩)
  else .err .io

/-- Digit-by-digit decimal writer; the fuel argument (any bound on the
number) keeps the function structurally recursive and computable. -/
def decimalGo : Nat → Nat → Chars
  | _, 0 => []
  | 0, _ => []
  | fuel + 1, n => decimalGo fuel (n / 10) ++ [Nat.digitChar (n % 10)]

/-- Decimal rendering of a natural number, most significant digit
first; models the Display formatting used by format! on the u32 tag
counter. -/
def decimal (n : Nat) : Chars :=
  if n = 0 then ['0'] else decimalGo n n

/-- Models the IMAPStream struct: the tag counter (a u32, so it wraps
modulo 2 to the 32 on increment), the fixed tag prefix string, and the
buffered read stream. -/
structure Conn where
  tag : Nat
  tagPre : Chars
  stream : ByteStream
  deriving DecidableEq

/-- Models IMAPStream::connect right after the greeting has been read:
tag counter 1 and tag prefix the single letter a. -/
def initConn (s : ByteStream) : Conn := ⟨1, ("a").toList, s⟩

/-- Models IMAPStream::create_command: formats the tag as prefix then
counter, builds the command line, and increments the counter (u32
wrap-around made explicit). -/
def create_command (c : Conn) (cmd : Chars) : (Chars × Chars) × Conn :=
  let command_tag := c.tagPre ++ decimal c.tag
  ((command_tag ++ ' ' :: cmd ++ ("\r\n").toList, command_tag),
   { c with tag := (c.tag + 1) % 4294967296 })

/-- Models IMAPStream::send_command; the write to the transport is
assumed to succeed, so only the generated tag and the updated
connection are returned. -/
def send_command (c : Conn) (cmd : Chars) : Chars × Conn :=
  let r := create_command c cmd
  (r.1.2, r.2)

/-- Loop body of IMAPStream::read_response, with explicit fuel.  Each
line read is pushed onto the accumulator; a line that merely STARTS
with the tag ends collection; a read error breaks out of the loop and
the lines collected so far are returned as a success. -/
def read_response_go (tag : Chars) : Nat → List Chars → ByteStream →
    RunResult (List Chars × ByteStream)
  | 0, _, _ => .diverge
  | fuel + 1, acc, s =>
    match read_line s with
    | .err _ => .ok (acc.reverse, s)
    | .panic => .panic
    | .diverge => .diverge
    | .ok (line, s1) =>
      if tag.isPrefixOf line then .ok ((line :: acc).reverse, s1)
      else read_response_go tag fuel (line :: acc) s1

/-- Models IMAPStream::read_response.  The fuel one-more-than the
stream length is always sufficient: every loop iteration that does not
terminate the function consumes at least one character, and once the
stream is at end-of-file the real loop reads empty lines forever,
which the model reports as divergence. -/
def read_response (tag : Chars) (s : ByteStream) :
    RunResult (List Chars × ByteStream) :=
  read_response_go tag (s.bytes.length + 1) [] s

/-- Models IMAPStream::run_command_with_response: send the command,
then collect lines until the tag is seen; an error from the collection
step is replaced by the fixed message seen in the source. -/
def run_command_with_response (c : Conn) (cmd : Chars) :
    RunResult (List Chars × Conn) :=
  let r := send_command c cmd
  match read_response r.1 r.2.stream with
  | .ok (lines, s1) => .ok (lines, { r.2 with stream := s1 })
  | .err _ => .err (.other (("Failed to read").toList))
  | .panic => .panic
  | .diverge => .diverge

/-- Last element of a list, as Vec::last on the batch. -/
def lastOf : Chars → Option Char
  | [] => none
  | [c] => some c
  | _ :: rest => lastOf rest

/-- Last element of a list of lines. -/
def lastLine : List Chars → Option Chars
  | [] => none
  | [l] => some l
  | _ :: rest => lastLine rest

/-- Maximal run of characters satisfying p, together with the rest of
the list. -/
def spanP (p : Char → Bool) : Chars → Chars × Chars
  | [] => ([], [])
  | c :: rest =>
    if p c then
      let q := spanP p rest
      (c :: q.1, q.2)
    else ([], c :: rest)

/-- Models the anchored status regex of parse_response_ok: an
alphanumeric run, a single space, an alphanumeric run, then anything.
Returns the two captured runs when the line matches. -/
def okLineMatch (line : Chars) : Option (Chars × Chars) :=
  if (spanP Char.isAlphanum line).1 = [] then none
  else if (spanP Char.isAlphanum line).2.take 1 = [' '] then
    if (spanP Char.isAlphanum ((spanP Char.isAlphanum line).2.drop 1)).1 = [] then
      none
    else
      some ((spanP Char.isAlphanum line).1,
        (spanP Char.isAlphanum ((spanP Char.isAlphanum line).2.drop 1)).1)
  else none

/-- Models IMAPStream::parse_response_ok: unwraps the last line of the
batch (panicking when the batch is empty), then succeeds exactly when
the status regex matches with second capture OK, and otherwise fails
with the Invalid Response message carrying the whole line. -/
def parse_response_ok (lines : List Chars) : RunResult Unit :=
  match lastLine lines with
  | none => .panic
  | some last_line =>
    match okLineMatch last_line with
    | some caps =>
      if caps.2 = ("OK").toList then .ok ()
      else .err (.other (("Invalid Response: ").toList ++ last_line))
    | none => .err (.other (("Invalid Response: ").toList ++ last_line))

/-- Models IMAPStream::run_command_and_check_ok. -/
def run_command_and_check_ok (c : Conn) (cmd : Chars) : RunResult Conn :=
  match run_command_with_response c cmd with
  | .ok (lines, c1) =>
    match parse_response_ok lines with
    | .ok _ => .ok c1
    | .err e => .err e
    | .panic => .panic
    | .diverge => .diverge
  | .err e => .err e
  | .panic => .panic
  | .diverge => .diverge

/-- Whitespace-run splitting of a line into its tokens (no empty
tokens); used only to state claims about whitespace-delimited tokens. -/
def splitWsGo : Chars → Chars → List Chars
  | cur, [] => if cur.isEmpty then [] else [cur.reverse]
  | cur, c :: rest =>
    if c.isWhitespace then
      if cur.isEmpty then splitWsGo [] rest else cur.reverse :: splitWsGo [] rest
    else splitWsGo (c :: cur) rest

/-- Tokens of a line, split on whitespace runs. -/
def splitWs (l : Chars) : List Chars := splitWsGo [] l

/-- First whitespace-delimited token of a line. -/
def firstToken (l : Chars) : Option Chars := (splitWs l).head?

/-- Second whitespace-delimited token of a line. -/
def secondToken (l : Chars) : Option Chars := (splitWs l).get? 1

/-- Drops a literal pattern from the front of a list, failing when the
list does not start with it. -/
def dropLit : Chars → Chars → Option Chars
  | [], l => some l
  | _ :: _, [] => none
  | p :: ps, c :: cs => if p = c then dropLit ps cs else none

/-- Matches the regex fragment consisting of a dot-star capture
followed by a literal carriage return and line feed: the capture may
not contain a line feed, so the split is at the first line feed, which
must be preceded by a carriage return.  Returns the capture and what
follows the terminator. -/
def upToCRLF : Chars → Option (Chars × Chars)
  | '\r' :: '\n' :: t => some ([], t)
  | c :: rest =>
    if c = '\n' then none
    else (upToCRLF rest).map fun p => (c :: p.1, p.2)
  | [] => none

/-- Same as upToCRLF but for a capture terminated by a closing square
bracket, carriage return and line feed (the PERMANENTFLAGS pattern). -/
def upToBrktCRLF : Chars → Option (Chars × Chars)
  | ']' :: '\r' :: '\n' :: t => some ([], t)
  | c :: rest =>
    if c = '\n' then none
    else (upToBrktCRLF rest).map fun p => (c :: p.1, p.2)
  | [] => none

/-- Value of a run of decimal digit characters, as str::parse reads
them. -/
def natOf (ds : Chars) : Nat := ds.foldl (fun a c => a * 10 + (c.toNat - 48)) 0

/-- Models str::parse::<u32> on a digit run: fails (and the source then
unwraps, i.e. panics) when the value exceeds the u32 range. -/
def parseU32 (ds : Chars) : Option Nat :=
  let n := natOf ds
  if n < 4294967296 then some n else none

/-- Models str::parse::<usize> on a digit run, with the 64-bit range. -/
def parseUsize (ds : Chars) : Option Nat :=
  let n := natOf ds
  if n < 18446744073709551616 then some n else none

/-- Models the EXISTS regex of parse_select_or_examine: star, space, a
digit run (captured), then the literal word EXISTS and the line
terminator. -/
def existsMatch (line : Chars) : Option Chars :=
  (dropLit (("* ").toList) line).bind fun r =>
    let d := spanP Char.isDigit r
    if d.1 = [] then none
    else (dropLit ((" EXISTS\r\n").toList) d.2).map fun _ => d.1

/-- Models the RECENT regex of parse_select_or_examine. -/
def recentMatch (line : Chars) : Option Chars :=
  (dropLit (("* ").toList) line).bind fun r =>
    let d := spanP Char.isDigit r
    if d.1 = [] then none
    else (dropLit ((" RECENT\r\n").toList) d.2).map fun _ => d.1

/-- Models the FLAGS regex of parse_select_or_examine: a nonempty
capture up to the line terminator. -/
def flagsMatch (line : Chars) : Option Chars :=
  (dropLit (("* FLAGS ").toList) line).bind fun r =>
    (upToCRLF r).bind fun p => if p.1 = [] then none else some p.1

/-- Models the three bracketed-code regexes of parse_select_or_examine
for a given keyword: the literal OK, space, open bracket, keyword,
space, a captured digit run, close bracket, then anything up to the
line terminator. -/
def okBracketNum (key : Chars) (line : Chars) : Option Chars :=
  (dropLit ((("OK [").toList) ++ key ++ ((" ").toList)) line).bind fun r =>
    let d := spanP Char.isDigit r
    if d.1 = [] then none
    else (dropLit (("]").toList) d.2).bind fun r2 =>
      (upToCRLF r2).map fun _ => d.1

/-- Models the PERMANENTFLAGS regex of parse_select_or_examine. -/
def permanentFlagsMatch (line : Chars) : Option Chars :=
  (dropLit (("OK [PERMANENTFLAGS ").toList) line).bind fun r =>
    (upToBrktCRLF r).bind fun p => if p.1 = [] then none else some p.1

/-- Models the IMAPMailbox struct of client.rs. -/
structure IMAPMailbox where
  flags : Chars
  exists_ : Nat
  recent : Nat
  unseen : Option Nat
  permanent_flags : Option Chars
  uid_next : Option Nat
  uid_validity : Option Nat
  deriving DecidableEq

/-- The default mailbox value parse_select_or_examine starts from. -/
def initMailbox : IMAPMailbox :=
  ⟨[], 0, 0, none, none, none, none⟩

/-- One iteration of the line scan in parse_select_or_examine: the
regexes are tried in the source's else-if order, so a line sets at
most one field; a captured number that does not fit in a u32 makes the
source's unwrap panic. -/
def processLine (m : IMAPMailbox) (line : Chars) : RunResult IMAPMailbox :=
  match existsMatch line with
  | some d =>
    match parseU32 d with
    | some n => .ok { m with exists_ := n }
    | none => .panic
  | none =>
  match recentMatch line with
  | some d =>
    match parseU32 d with
    | some n => .ok { m with recent := n }
    | none => .panic
  | none =>
  match flagsMatch line with
  | some f => .ok { m with flags := f }
  | none =>
  match okBracketNum (("UNSEEN").toList) line with
  | some d =>
    match parseU32 d with
    | some n => .ok { m with unseen := some n }
    | none => .panic
  | none =>
  match okBracketNum (("UIDVALIDITY").toList) line with
  | some d =>
    match parseU32 d with
    | some n => .ok { m with uid_validity := some n }
    | none => .panic
  | none =>
  match okBracketNum (("UIDNEXT").toList) line with
  | some d =>
    match parseU32 d with
    | some n => .ok { m with uid_next := some n }
    | none => .panic
  | none =>
  match permanentFlagsMatch line with
  | some f => .ok { m with permanent_flags := some f }
  | none => .ok m

/-- Scans every line of the batch, threading the mailbox through. -/
def scanLines : IMAPMailbox → List Chars → RunResult IMAPMailbox
  | m, [] => .ok m
  | m, line :: rest =>
    match processLine m line with
    | .ok m2 => scanLines m2 rest
    | .err e => .err e
    | .panic => .panic
    | .diverge => .diverge

/-- Models IMAPStream::parse_select_or_examine: the status of the batch
is checked first via parse_response_ok, then every line is scanned
against the mailbox patterns, unmatched lines being ignored. -/
def parse_select_or_examine (lines : List Chars) : RunResult IMAPMailbox :=
  match parse_response_ok lines with
  | .ok _ => scanLines initMailbox lines
  | .err e => .err e
  | .panic => .panic
  | .diverge => .diverge

/-- Models the CAPABILITY regex: star, space, the word CAPABILITY, a
space, then a capture up to the line terminator. -/
def capMatch (line : Chars) : Option Chars :=
  (dropLit (("* CAPABILITY ").toList) line).bind fun r =>
    (upToCRLF r).map fun p => p.1

/-- Models str::split on a single space character: empty fragments are
kept, as Rust's split does. -/
def splitSp : Chars → List Chars
  | [] => [[]]
  | c :: rest =>
    let r := splitSp rest
    if c = ' ' then [] :: r
    else
      match r with
      | h :: t => (c :: h) :: t
      | [] => [[c]]

/-- Models IMAPStream::parse_capability: the status of the batch is
checked first, then the first line matching the CAPABILITY pattern
supplies the capability list, split on single spaces; with no such
line the fixed capabilities error is returned. -/
def parse_capability (lines : List Chars) : RunResult (List Chars) :=
  match parse_response_ok lines with
  | .ok _ =>
    match lines.findSome? capMatch with
    | some caps => .ok (splitSp caps)
    | none => .err (.other (("Error parsing capabilities response").toList))
  | .err e => .err e
  | .panic => .panic
  | .diverge => .diverge

/-- Tries the unanchored FETCH regex at the head of the list: star, one
or more whitespace characters, a captured digit run, whitespace, the
word FETCH, whitespace, open parenthesis and RFC822, whitespace, an
open brace, a captured digit run, and a close brace.  Returns the two
digit captures. -/
def fetchMatchAt (l : Chars) : Option (Chars × Chars) :=
  (dropLit (("*").toList) l).bind fun r1 =>
  let w1 := spanP Char.isWhitespace r1
  if w1.1 = [] then none else
  let d1 := spanP Char.isDigit w1.2
  if d1.1 = [] then none else
  let w2 := spanP Char.isWhitespace d1.2
  if w2.1 = [] then none else
  (dropLit (("FETCH").toList) w2.2).bind fun r2 =>
  let w3 := spanP Char.isWhitespace r2
  if w3.1 = [] then none else
  (dropLit (("(RFC822").toList) w3.2).bind fun r3 =>
  let w4 := spanP Char.isWhitespace r3
  if w4.1 = [] then none else
  (dropLit (("\x7b").toList) w4.2).bind fun r4 =>
  let d2 := spanP Char.isDigit r4
  if d2.1 = [] then none else
  (dropLit (("\x7d").toList) d2.2).map fun _ => (d1.1, d2.1)

/-- Leftmost match of the unanchored FETCH regex in a line. -/
def fetchMatch : Chars → Option (Chars × Chars)
  | [] => none
  | c :: rest =>
    match fetchMatchAt (c :: rest) with
    | some r => some r
    | none => fetchMatch rest

/-- Insert into the message map, replacing an existing key, as
HashMap::insert does (the map is modelled as an association list). -/
def mapInsert {α : Type} (k : Nat) (v : α) : List (Nat × α) → List (Nat × α)
  | [] => [(k, v)]
  | (k2, v2) :: rest =>
    if k = k2 then (k, v) :: rest else (k2, v2) :: mapInsert k v rest

/-- Loop body of IMAPStream::read_fetch_rfc822_response with explicit
fuel, parameterised by the external message decoder.  A line matching
the FETCH pattern announces a literal: its size is parsed (usize,
panicking on overflow), exactly that many characters are read with no
interpretation, the decoder's result is unwrapped — so a decoder
failure is a panic, as in the source — and the message is keyed by the
parsed sequence number; the rest of that logical response is consumed
as one ordinary line.  A line not matching the pattern ends the loop. -/
def read_fetch_go {α : Type} (decode : Chars → Option α) :
    Nat → List (Nat × α) → ByteStream → RunResult (List (Nat × α) × ByteStream)
  | 0, _, _ => .diverge
  | fuel + 1, msgs, s =>
    match read_line s with
    | .err e => .err e
    | .panic => .panic
    | .diverge => .diverge
    | .ok (fetch_line, s1) =>
      match fetchMatch fetch_line with
      | none => .ok (msgs, s1)
      | some (seqD, sizeD) =>
        match parseUsize sizeD with
        | none => .panic
        | some n =>
          match read_exact n s1 with
          | .ok (bytes, s2) =>
            match decode bytes with
            | none => .panic
            | some msg =>
              match parseU32 seqD with
              | none => .panic
              | some seq =>
                match read_line s2 with
                | .err e => .err e
                | .panic => .panic
                | .diverge => .diverge
                | .ok (_, s3) =>
                  read_fetch_go decode fuel (mapInsert seq msg msgs) s3
          | _ =>
            match read_line ⟨[], s1.good⟩ with
            | .err e => .err e
            | .panic => .panic
            | .diverge => .diverge
            | .ok (_, s3) => read_fetch_go decode fuel msgs s3

/-- Models IMAPStream::read_fetch_rfc822_response (after the FETCH
RFC822 command has been sent), parameterised by the external
MimeMessage parser. -/
def read_fetch_rfc822_response {α : Type} (decode : Chars → Option α)
    (s : ByteStream) : RunResult (List (Nat × α) × ByteStream) :=
  read_fetch_go decode (s.bytes.length + 1) [] s

/-- The loop guard of IMAPStream::read_greeting over the reversed
buffer of characters read so far: the source keeps reading while the
buffer is shorter than two characters OR (the last character is not a
line feed AND the one before it is not a carriage return). -/
def greet_cont (rbuf : Chars) : Bool :=
  match rbuf with
  | a :: b :: _ => !(a = '\n') && !(b = '\r')
  | _ => true

/-- Loop of IMAPStream::read_greeting, reading one character at a time;
`rbuf` is the reversed buffer of characters consumed so far.  At
end-of-file the real code keeps appending NUL bytes forever, which the
model reports as divergence; a transport error is mapped to the fixed
message of the source. -/
def read_greeting_go (good : Bool) : Chars → Chars → RunResult ByteStream
  | rbuf, [] =>
    if greet_cont rbuf then
      if good then .diverge
      else .err (.other (("Failed to read the response").toList))
    else .ok ⟨[], good⟩
  | rbuf, c :: rest =>
    if greet_cont rbuf then read_greeting_go good (c :: rbuf) rest
    else .ok ⟨c :: rest, good⟩

/-- Models IMAPStream::read_greeting; returns the stream as it is left
after the greeting has been consumed. -/
def read_greeting (s : ByteStream) : RunResult ByteStream :=
  read_greeting_go s.good [] s.bytes

/-- Connection state after k commands have been issued (the k-th
command text is cmds k); only create_command touches the tag counter. -/
def connIter (c : Conn) (cmds : Nat → Chars) : Nat → Conn
  | 0 => c
  | k + 1 => (create_command (connIter c cmds k) (cmds k)).2

/-- The tag string generated for the k-th command (0-indexed). -/
def nthTag (c : Conn) (cmds : Nat → Chars) (k : Nat) : Chars :=
  (create_command (connIter c cmds k) (cmds k)).1.2

/-- The announcement line of the fetch example: sequence number 3, a
literal of 11 characters. -/
def fetchAnnounce : Chars := ("* 3 FETCH (RFC822 {11}\r\n").toList

/-- What follows the literal in the fetch example: the closing line of
the FETCH response and the tagged completion line. -/
def fetchClose : Chars := (")\r\na4 OK done\r\n").toList

lemma digitChar_toNat : ∀ m, m < 10 → (Nat.digitChar m).toNat - 48 = m := by decide

lemma natOf_append_digit (xs : Chars) (c : Char) :
    natOf (xs ++ [c]) = natOf xs * 10 + (c.toNat - 48) := by
  unfold natOf
  rw [List.foldl_append]
  rfl

lemma natOf_decimalGo : ∀ fuel n, n ≤ fuel → natOf (decimalGo fuel n) = n := by
  intro fuel
  induction fuel with
  | zero =>
    intro n hn
    interval_cases n
    rfl
  | succ fuel ih =>
    intro n hn
    match n with
    | 0 => rfl
    | m + 1 =>
      rw [show decimalGo (fuel + 1) (m + 1) =
        decimalGo fuel ((m + 1) / 10) ++ [Nat.digitChar ((m + 1) % 10)] from rfl]
      rw [natOf_append_digit, ih _ (by omega), digitChar_toNat _ (by omega)]
      omega

lemma natOf_decimal (n : Nat) : natOf (decimal n) = n := by
  unfold decimal
  split
  · subst n
    rfl
  · exact natOf_decimalGo n n (le_refl n)

lemma decimal_inj (a b : Nat) (h : decimal a = decimal b) : a = b := by
  have h2 := congrArg natOf h
  rwa [natOf_decimal, natOf_decimal] at h2

lemma connIter_tagPre (c : Conn) (cmds : Nat → Chars) :
    ∀ k, (connIter c cmds k).tagPre = c.tagPre := by
  intro k
  induction k with
  | zero => rfl
  | succ k ih => simpa [connIter, create_command] using ih

lemma connIter_tag (c : Conn) (cmds : Nat → Chars) (h : c.tag = 1) :
    ∀ k, (connIter c cmds k).tag = (1 + k) % 4294967296 := by
  intro k
  induction k with
  | zero => simpa [connIter] using h
  | succ k ih =>
    simp only [connIter, create_command]
    rw [ih]
    omega

lemma read_line_cases (s : ByteStream) :
    (∃ r, read_line s = .ok r) ∨ read_line s = .err .io := by
  unfold read_line
  split
  · exact Or.inl ⟨_, rfl⟩
  · split
    · exact Or.inl ⟨_, rfl⟩
    · exact Or.inr rfl

lemma read_response_go_no_err (tag : Chars) :
    ∀ fuel acc s, (∃ r, read_response_go tag fuel acc s = .ok r) ∨
      read_response_go tag fuel acc s = .diverge := by
  intro fuel
  induction fuel with
  | zero => intro acc s; exact Or.inr rfl
  | succ fuel ih =>
    intro acc s
    rcases read_line_cases s with ⟨⟨line, s1⟩, h⟩ | h
    · by_cases hp : tag.isPrefixOf line
      · exact Or.inl ⟨(acc.reverse ++ [line], s1), by simp [read_response_go, h, hp]⟩
      · rcases ih (line :: acc) s1 with ⟨r, hr⟩ | hr
        · exact Or.inl ⟨r, by simp [read_response_go, h, hp, hr]⟩
        · exact Or.inr (by simp [read_response_go, h, hp, hr])
    · exact Or.inl ⟨(acc.reverse, s), by simp [read_response_go, h]⟩

lemma lastLine_concat : ∀ pre (l : Chars), lastLine (pre ++ [l]) = some l
  | [], _ => rfl
  | [_], _ => rfl
  | _ :: b :: pre, l => lastLine_concat (b :: pre) l

lemma spanP_split (p : Char → Bool) : ∀ l : Chars,
    (spanP p l).1 ++ (spanP p l).2 = l ∧
    (∀ c ∈ (spanP p l).1, p c = true) ∧
    (∀ c ∈ (spanP p l).2.take 1, p c = false) := by
  intro l
  induction l with
  | nil => simp [spanP]
  | cons c rest ih =>
    by_cases hc : p c
    · refine ⟨by simp [spanP, hc, ih.1], ?_, ?_⟩
      · intro d hd
        simp [spanP, hc] at hd
        rcases hd with hd | hd
        · subst hd; exact hc
        · exact ih.2.1 d hd
      · intro d hd
        simp only [spanP, hc, if_pos] at hd
        exact ih.2.2 d hd
    · refine ⟨by simp [spanP, hc], by simp [spanP, hc], ?_⟩
      intro d hd
      simp [spanP, hc] at hd
      subst hd
      simpa using hc

lemma spanP_eq_of (p : Char → Bool) : ∀ (t r : Chars),
    (∀ c ∈ t, p c = true) → (∀ c ∈ r.take 1, p c = false) →
    spanP p (t ++ r) = (t, r) := by
  intro t
  induction t with
  | nil =>
    intro r h1 h2
    cases r with
    | nil => rfl
    | cons c cs => simp [spanP, h2 c (by simp)]
  | cons c cs ih =>
    intro r h1 h2
    simp [spanP, h1 c (by simp), ih r (fun d hd => h1 d (by simp [hd])) h2]

lemma takeLine_append : ∀ pre rest : Chars, '\n' ∉ pre →
    takeLine (pre ++ '\n' :: rest) = (pre ++ ['\n'], rest) := by
  intro pre
  induction pre with
  | nil => intro rest _; simp [takeLine]
  | cons c cs ih =>
    intro rest h
    have hc : ¬(c = '\n') := by
      intro hh
      exact h (by simp [hh])
    have hcs : '\n' ∉ cs := fun hh => h (by simp [hh])
    simp [takeLine, hc, ih rest hcs]

lemma read_line_append (pre rest : Chars) (g : Bool) (h : '\n' ∉ pre) :
    read_line ⟨pre ++ '\n' :: rest, g⟩ = .ok (pre ++ ['\n'], ⟨rest, g⟩) := by
  unfold read_line
  rw [if_pos (by simp)]
  simp [takeLine_append pre rest h]

/-- C1: the source's read_response recognises the completion line by
str::starts_with on the issuing tag, so with tag a1 outstanding the
line a10 OK ... — whose first whitespace-delimited token is a10, not
a1 — terminates collection, and the true completion line a1 OK done is
left unread on the stream. -/
theorem c1_completion_matched_by_mere_prefix :
    read_response (("a1").toList)
        ⟨("* 1 EXISTS\r\na10 OK blah\r\na1 OK done\r\n").toList, true⟩ =
      .ok ([("* 1 EXISTS\r\n").toList, ("a10 OK blah\r\n").toList],
        ⟨("a1 OK done\r\n").toList, true⟩) ∧
    firstToken (("a10 OK blah\r\n").toList) = some (("a10").toList) :=
  ⟨rfl, rfl⟩

/-- C2 counterexample: with the transport failing after one untagged
line, run_command_with_response reports success and hands the caller
the partial one-line batch; the I/O error is not surfaced. -/
theorem c2_counterexample_partial_batch_ok :
    run_command_with_response (initConn ⟨("* 1 EXISTS\r\n").toList, false⟩)
        (("NOOP").toList) =
      .ok ([("* 1 EXISTS\r\n").toList], ⟨2, ("a").toList, ⟨[], false⟩⟩) := rfl

/-- C2 amended: an I/O error while reading lines never surfaces from
read_response — the loop breaks and whatever was collected is returned
as a success. -/
theorem c2_amended_read_errors_swallowed :
    ∀ (tag : Chars) (s : ByteStream) (e : ClientError),
      read_response tag s ≠ RunResult.err e := by
  intro tag s e h
  rw [read_response] at h
  rcases read_response_go_no_err tag (s.bytes.length + 1) [] s with ⟨r, hr⟩ | hr
  · rw [hr] at h
    exact RunResult.noConfusion h
  · rw [hr] at h
    exact RunResult.noConfusion h

/-- C4 counterexample: the status regex captures a maximal alphanumeric
run, so the line a3 OK-foo bar, whose second whitespace-delimited
token is OK-foo and not OK, is nevertheless classified as success. -/
theorem c4_counterexample_ok_run_not_token :
    parse_response_ok [("a3 OK-foo bar\r\n").toList] = .ok () ∧
    secondToken (("a3 OK-foo bar\r\n").toList) ≠ some (("OK").toList) :=
  ⟨rfl, by decide⟩

/-- C6: on the SELECT example batch the parsed mailbox has exists 172,
recent 1, the flag list, uid validity 3857529045, uid next 4392, and
no unseen field; and a failed status check is propagated unchanged
before any line is scanned. -/
theorem c6_mailbox_example_and_status_first :
    parse_select_or_examine
        [("* 172 EXISTS\r\n").toList, ("* 1 RECENT\r\n").toList,
         ("* FLAGS (\\Answered \\Flagged)\r\n").toList,
         ("OK [UIDVALIDITY 3857529045] UIDs valid\r\n").toList,
         ("OK [UIDNEXT 4392] Predicted next UID\r\n").toList,
         ("a1 OK SELECT completed\r\n").toList] =
      .ok ⟨("(\\Answered \\Flagged)").toList, 172, 1, none, none,
        some 4392, some 3857529045⟩ ∧
    ∀ ls e, parse_response_ok ls = .err e → parse_select_or_examine ls = .err e := by
  refine ⟨rfl, ?_⟩
  intro ls e h
  simp [parse_select_or_examine, h]

/-- Witness for C6: instantiating the status-first conjunct on a batch
whose tagged line reports NO. -/
theorem c6_mailbox_example_and_status_first_witness :
    parse_select_or_examine [("a1 NO failed\r\n").toList] =
      .err (.other (("Invalid Response: a1 NO failed\r\n").toList)) :=
  c6_mailbox_example_and_status_first.2 [("a1 NO failed\r\n").toList]
    (.other (("Invalid Response: a1 NO failed\r\n").toList)) rfl

/-- C8: the literal's characters are handed to the external decoder and
the result is unwrapped, so one failing decode panics the whole fetch
instead of skipping the message — while the very same stream with a
succeeding decoder yields the one-entry message map. -/
theorem c8_decoder_failure_panics :
    read_fetch_rfc822_response (fun _ => (none : Option Nat))
        ⟨("* 3 FETCH (RFC822 {11}\r\nHello\r\nBye.)\r\na4 OK done\r\n").toList, true⟩ =
      .panic ∧
    read_fetch_rfc822_response (fun _ => (some 7 : Option Nat))
        ⟨("* 3 FETCH (RFC822 {11}\r\nHello\r\nBye.)\r\na4 OK done\r\n").toList, true⟩ =
      .ok ([(3, 7)], ⟨[], true⟩) :=
  ⟨rfl, rfl⟩

/-- C9: the greeting loop's continue condition conjoins the two
inequality tests, so it stops as soon as the second-to-last byte read
is a carriage return: on the greeting bytes * CR X CR LF G it consumes
only three characters and leaves the first CRLF unread, while a
greeting free of stray CR and LF is consumed exactly through its
CRLF. -/
theorem c9_greeting_stops_before_first_crlf :
    read_greeting ⟨("*\rX\r\nG").toList, true⟩ = .ok ⟨("\r\nG").toList, true⟩ ∧
    read_greeting ⟨("* OK ready\r\nNEXT").toList, true⟩ = .ok ⟨("NEXT").toList, true⟩ :=
  ⟨rfl, rfl⟩

/-- C10: parse_response_ok unwraps the last line and so panics on an
empty batch; an empty batch is reachable because read_response returns
Ok with no lines when the very first read fails; composing the two,
run_command_and_check_ok on a dead transport panics. -/
theorem c10_empty_batch_reachable_panic :
    parse_response_ok [] = .panic ∧
    (∀ tag : Chars, read_response tag ⟨[], false⟩ = .ok ([], ⟨[], false⟩)) ∧
    run_command_and_check_ok (initConn ⟨[], false⟩) (("NOOP").toList) = .panic := by
  refine ⟨rfl, ?_, rfl⟩
  intro tag
  rfl

/-- C3: starting from a fresh connection, the numeric suffixes (the
tag-counter values) of any two commands i < j are strictly increasing
and the generated tag strings are distinct, as long as the u32 counter
has not wrapped (fewer than 2^32 - 1 commands). -/
theorem c3_tags_distinct_and_increasing (s : ByteStream) (cmds : Nat → Chars)
    (i j : Nat) (hij : i < j) (hj : j < 4294967295) :
    (connIter (initConn s) cmds i).tag < (connIter (initConn s) cmds j).tag ∧
    nthTag (initConn s) cmds i ≠ nthTag (initConn s) cmds j := by
  have hi : (connIter (initConn s) cmds i).tag = 1 + i := by
    rw [connIter_tag (initConn s) cmds rfl i]
    omega
  have hjt : (connIter (initConn s) cmds j).tag = 1 + j := by
    rw [connIter_tag (initConn s) cmds rfl j]
    omega
  refine ⟨by omega, ?_⟩
  intro h
  unfold nthTag create_command at h
  simp only at h
  rw [connIter_tagPre, connIter_tagPre, hi, hjt] at h
  have h2 := List.append_cancel_left h
  have h3 := decimal_inj _ _ h2
  omega

/-- Witness for C3: the first two commands of a fresh connection get
the tags a1 and a2. -/
theorem c3_tags_distinct_and_increasing_witness :
    (connIter (initConn ⟨[], true⟩) (fun _ => ("NOOP").toList) 0).tag <
      (connIter (initConn ⟨[], true⟩) (fun _ => ("NOOP").toList) 1).tag ∧
    nthTag (initConn ⟨[], true⟩) (fun _ => ("NOOP").toList) 0 ≠
      nthTag (initConn ⟨[], true⟩) (fun _ => ("NOOP").toList) 1 :=
  c3_tags_distinct_and_increasing ⟨[], true⟩ (fun _ => ("NOOP").toList) 0 1
    (by decide) (by decide)

/-- C7: on the example batch, capability parsing returns the three
tokens in order; with a successful status line but no CAPABILITY line
the fixed capabilities error results; and a success is only ever
produced from a line matching the CAPABILITY pattern, whose capture is
split on single spaces. -/
theorem c7_capability_parsing :
    parse_capability
        [("* CAPABILITY IMAP4rev1 STARTTLS AUTH=PLAIN\r\n").toList,
         ("a2 OK CAPABILITY completed\r\n").toList] =
      .ok [("IMAP4rev1").toList, ("STARTTLS").toList, ("AUTH=PLAIN").toList] ∧
    (∀ ls, parse_response_ok ls = .ok () → (∀ l ∈ ls, capMatch l = none) →
      parse_capability ls =
        .err (.other (("Error parsing capabilities response").toList))) ∧
    (∀ ls caps, parse_capability ls = .ok caps →
      ∃ l ∈ ls, ∃ c, capMatch l = some c ∧ caps = splitSp c) := by
  refine ⟨rfl, ?_, ?_⟩
  · intro ls h1 h2
    simp [parse_capability, h1, List.findSome?_eq_none_iff.mpr h2]
  · intro ls caps h
    unfold parse_capability at h
    cases hpr : parse_response_ok ls with
    | ok u =>
      rw [hpr] at h
      cases hf : ls.findSome? capMatch with
      | none =>
        rw [hf] at h
        exact absurd h (by simp)
      | some c =>
        rw [hf] at h
        obtain ⟨l, hl, hc⟩ := List.exists_of_findSome?_eq_some hf
        refine ⟨l, hl, c, hc, ?_⟩
        injection h with h2
        exact h2.symm
    | err e =>
      rw [hpr] at h
      exact absurd h (by simp)
    | panic =>
      rw [hpr] at h
      exact absurd h (by simp)
    | diverge =>
      rw [hpr] at h
      exact absurd h (by simp)

/-- Witness for C7: a batch with a successful tagged line but no
CAPABILITY line yields the capabilities error. -/
theorem c7_capability_parsing_witness :
    parse_capability [("a2 OK done\r\n").toList] =
      .err (.other (("Error parsing capabilities response").toList)) :=
  c7_capability_parsing.2.1 [("a2 OK done\r\n").toList] rfl (by decide)

lemma okLineMatch_some (l t u : Chars) (h : okLineMatch l = some (t, u)) :
    ∃ r, l = t ++ ' ' :: (u ++ r) ∧ t ≠ [] ∧
      (∀ c ∈ t, c.isAlphanum = true) ∧ (∀ c ∈ r.take 1, c.isAlphanum = false) := by
  unfold okLineMatch at h
  by_cases h1 : (spanP Char.isAlphanum l).1 = []
  · rw [if_pos h1] at h
    exact absurd h (by simp)
  rw [if_neg h1] at h
  by_cases h2 : (spanP Char.isAlphanum l).2.take 1 = [' ']
  swap
  · rw [if_neg h2] at h
    exact absurd h (by simp)
  rw [if_pos h2] at h
  by_cases h3 : (spanP Char.isAlphanum ((spanP Char.isAlphanum l).2.drop 1)).1 = []
  · rw [if_pos h3] at h
    exact absurd h (by simp)
  rw [if_neg h3] at h
  injection h with hcaps
  obtain ⟨hct, hcu⟩ : (spanP Char.isAlphanum l).1 = t ∧
      (spanP Char.isAlphanum ((spanP Char.isAlphanum l).2.drop 1)).1 = u := by
    constructor
    · exact congrArg Prod.fst hcaps
    · exact congrArg Prod.snd hcaps
  obtain ⟨a, as, hx⟩ : ∃ a as, (spanP Char.isAlphanum l).2 = a :: as := by
    cases hx : (spanP Char.isAlphanum l).2 with
    | nil =>
      rw [hx] at h2
      simp at h2
    | cons a as => exact ⟨a, as, rfl⟩
  have ha : a = ' ' := by
    rw [hx] at h2
    simpa using h2
  have hdrop : (spanP Char.isAlphanum l).2.drop 1 = as := by
    rw [hx]
    rfl
  have e1 := (spanP_split Char.isAlphanum l).1
  have e2 := (spanP_split Char.isAlphanum as).1
  rw [hct, hx, ha] at e1
  rw [hdrop] at hcu
  rw [hcu] at e2
  set r := (spanP Char.isAlphanum as).2 with hr
  refine ⟨r, ?_, ?_, ?_, ?_⟩
  · rw [e2, ← e1]
  · rw [← hct]
    exact h1
  · intro c hc
    rw [← hct] at hc
    exact (spanP_split Char.isAlphanum l).2.1 c hc
  · intro c hc
    exact (spanP_split Char.isAlphanum as).2.2 c hc

/-- C4 amended: status parsing looks only at the last line of the
batch; it succeeds exactly when that line is a nonempty alphanumeric
run, a single space, the alphanumeric run OK, and then a
non-alphanumeric boundary (so a second whitespace-token that merely
begins with OK, such as OK-foo, also succeeds); every non-success —
NO, BAD, unrecognized, or a line that does not decompose into two
tokens — yields one and the same ErrorKind Other error whose message
is Invalid Response followed by the full line, with no protocol error
distinct from a command failure. -/
theorem c4_amended_status_classification (pre : List Chars) (l : Chars) :
    ((parse_response_ok (pre ++ [l]) = .ok ()) ↔
      (∃ t r, l = t ++ ' ' :: (("OK").toList ++ r) ∧ t ≠ [] ∧
        (∀ c ∈ t, c.isAlphanum = true) ∧ (∀ c ∈ r.take 1, c.isAlphanum = false))) ∧
    (parse_response_ok (pre ++ [l]) = .ok () ∨
      parse_response_ok (pre ++ [l]) =
        .err (.other ((("Invalid Response: ").toList ++ l)))) := by
  have hnone : okLineMatch l = none →
      parse_response_ok (pre ++ [l]) =
        .err (.other (("Invalid Response: ").toList ++ l)) := by
    intro hm
    simp only [parse_response_ok, lastLine_concat, hm]
  have hsome : ∀ caps, okLineMatch l = some caps →
      parse_response_ok (pre ++ [l]) =
        (if caps.2 = ("OK").toList then .ok ()
         else .err (.other (("Invalid Response: ").toList ++ l))) := by
    intro caps hm
    simp only [parse_response_ok, lastLine_concat, hm]
  constructor
  · constructor
    · intro h
      cases hm : okLineMatch l with
      | none =>
        rw [hnone hm] at h
        exact absurd h (by simp)
      | some caps =>
        rw [hsome caps hm] at h
        have hc : caps.2 = ("OK").toList := by
          by_cases hc : caps.2 = ("OK").toList
          · exact hc
          · rw [if_neg hc] at h
            exact absurd h (by simp)
        obtain ⟨r, hdecomp, ht, hta, hrb⟩ :=
          okLineMatch_some l caps.1 caps.2 (by rw [hm])
        rw [hc] at hdecomp
        exact ⟨caps.1, r, hdecomp, ht, hta, hrb⟩
    · rintro ⟨t, r, hl, ht, hta, hr⟩
      have hsp1 : spanP Char.isAlphanum l = (t, ' ' :: (("OK").toList ++ r)) := by
        rw [hl]
        exact spanP_eq_of _ t (' ' :: (("OK").toList ++ r)) hta
          (by
            intro c hc
            simp at hc
            subst hc
            decide)
      have hsp2 : spanP Char.isAlphanum ('O' :: 'K' :: r) = (['O', 'K'], r) :=
        spanP_eq_of _ (("OK").toList) r (by decide) hr
      have hmatch : okLineMatch l = some (t, ("OK").toList) := by
        unfold okLineMatch
        rw [hsp1]
        simp [ht, hsp2]
      rw [hsome _ hmatch]
      simp
  · cases hm : okLineMatch l with
    | none => exact Or.inr (hnone hm)
    | some caps =>
      by_cases hc : caps.2 = ("OK").toList
      · refine Or.inl ?_
        rw [hsome caps hm, if_pos hc]
      · refine Or.inr ?_
        rw [hsome caps hm, if_neg hc]

lemma read_fetch_go_step {α : Type} (decode : Chars → Option α) (fuel : Nat)
    (msgs : List (Nat × α)) (s : ByteStream) :
    read_fetch_go decode (fuel + 1) msgs s =
      (match read_line s with
       | .err e => .err e
       | .panic => .panic
       | .diverge => .diverge
       | .ok (fetch_line, s1) =>
         match fetchMatch fetch_line with
         | none => .ok (msgs, s1)
         | some (seqD, sizeD) =>
           match parseUsize sizeD with
           | none => .panic
           | some n =>
             match read_exact n s1 with
             | .ok (bytes, s2) =>
               match decode bytes with
               | none => .panic
               | some msg =>
                 match parseU32 seqD with
                 | none => .panic
                 | some seq =>
                   match read_line s2 with
                   | .err e => .err e
                   | .panic => .panic
                   | .diverge => .diverge
                   | .ok (_, s3) => read_fetch_go decode fuel (mapInsert seq msg msgs) s3
             | _ =>
               match read_line ⟨[], s1.good⟩ with
               | .err e => .err e
               | .panic => .panic
               | .diverge => .diverge
               | .ok (_, s3) => read_fetch_go decode fuel msgs s3) := rfl

/-- C5: after the announcement line for sequence 3 and a literal of 11
characters, exactly the next 11 characters — whatever they are, with
an embedded CRLF never treated as a line break — are extracted,
decoded, and associated with sequence number 3, and the closing line
and tagged line are then consumed from precisely the position after
those 11 characters. -/
theorem c5_literal_byte_exact {α : Type} (payload : Chars) (hlen : payload.length = 11)
    (decode : Chars → Option α) (msg : α) (hdec : decode payload = some msg) :
    read_fetch_rfc822_response decode ⟨fetchAnnounce ++ payload ++ fetchClose, true⟩ =
      .ok ([(3, msg)], ⟨[], true⟩) := by
  have hL : (fetchAnnounce ++ payload ++ fetchClose).length = 50 := by
    rw [List.length_append, List.length_append, hlen]
    rfl
  have hA : fetchAnnounce ++ payload ++ fetchClose =
      ("* 3 FETCH (RFC822 {11}\r").toList ++ '\n' :: (payload ++ fetchClose) := by
    have h0 : fetchAnnounce = ("* 3 FETCH (RFC822 {11}\r").toList ++ ['\n'] := rfl
    rw [h0]
    simp [List.append_assoc]
  have hfm : fetchMatch (("* 3 FETCH (RFC822 {11}\r").toList ++ ['\n']) =
      some (['3'], ['1', '1']) := rfl
  have hpu : parseUsize ['1', '1'] = some 11 := rfl
  have hp3 : parseU32 ['3'] = some 3 := rfl
  have hre : read_exact 11 ⟨payload ++ fetchClose, true⟩ =
      .ok (payload, ⟨fetchClose, true⟩) := by
    unfold read_exact
    rw [if_pos (by rw [List.length_append, hlen]; omega)]
    rw [← hlen, List.take_left, List.drop_left]
  have hrl2 : read_line ⟨fetchClose, true⟩ =
      .ok ((")\r\n").toList, ⟨("a4 OK done\r\n").toList, true⟩) := rfl
  have hstep2 : ∀ msgs : List (Nat × α),
      read_fetch_go decode 50 msgs ⟨("a4 OK done\r\n").toList, true⟩ =
        .ok (msgs, ⟨[], true⟩) := fun _ => rfl
  show read_fetch_go decode ((fetchAnnounce ++ payload ++ fetchClose).length + 1) []
      ⟨fetchAnnounce ++ payload ++ fetchClose, true⟩ = .ok ([(3, msg)], ⟨[], true⟩)
  rw [hL, read_fetch_go_step]
  simp only [hA, read_line_append (("* 3 FETCH (RFC822 {11}\r").toList)
    (payload ++ fetchClose) true (by decide), hfm, hpu, hp3, hre, hdec, hrl2,
    hstep2, mapInsert]

/-- Witness for C5: an eleven-character literal containing an embedded
CRLF is extracted whole for sequence 3. -/
theorem c5_literal_byte_exact_witness :
    read_fetch_rfc822_response (fun l => (some l : Option Chars))
        ⟨fetchAnnounce ++ ("Hello\r\nBye.").toList ++ fetchClose, true⟩ =
      .ok ([(3, ("Hello\r\nBye.").toList)], ⟨[], true⟩) :=
  c5_literal_byte_exact (("Hello\r\nBye.").toList) rfl (fun l => some l)
    (("Hello\r\nBye.").toList) rfl
